import Mathlib

/-!
Verification of the live-network transaction orchestration engine of
`execution-specs` (the `execute` pytest plugin: `pre_alloc.py`, `sender.py`).

The Python sources are shallowly embedded: machine integers are `Nat`/`Int`
(Python integers are unbounded, balances and gas values are non-negative Wei),
fallible code returns `Except`, and the per-test `Alloc` object is explicit
state (`AllocState`).  Collaborator modules of the same repository that are not
part of the provided sources (`execution_testing.test_types`,
`execution_testing.forks`, `execution_testing.tools`, `execution_testing.rpc`)
enter either as abstract environment records or as definitions modelled from
the specification, each marked as such in its doc comment.
-/

namespace ExecuteOrchestration

/-- Number of bytes: `MAX_BYTECODE_SIZE = 24576` from `pre_alloc.py`. -/
def MAX_BYTECODE_SIZE : Nat := 24576

/-- Constant `MAX_INITCODE_SIZE = MAX_BYTECODE_SIZE * 2` from `pre_alloc.py`. -/
def MAX_INITCODE_SIZE : Nat := MAX_BYTECODE_SIZE * 2

/-- Expected account recorded by the `Alloc` (`execution_testing.base_types.Account`
view: nonce, balance, code, storage).  Addresses and bytes are `Nat`. -/
structure Account where
  nonce : Nat
  balance : Nat
  code : List Nat
  storage : List (Nat × Nat)
deriving DecidableEq

/-- A queued `PendingTransaction` from `pre_alloc.py`: `value = none` is the
deferred sentinel, fee fields are `none` until `set_gas_price` fixes them. -/
structure PendingTx where
  toAddr : Option Nat
  value : Option Nat
  gas_limit : Nat
  gas_price : Option Nat
  max_fee_per_gas : Option Nat
  max_priority_fee_per_gas : Option Nat
  max_fee_per_blob_gas : Option Nat
deriving DecidableEq

/-- The mutable state of the execute-mode `Alloc`: recorded expected accounts
(most recent entry first, as `dict.__setitem__` overwrites), the ordered
pending-transaction list, the deployed-contract list and the funded-EOA list. -/
structure AllocState where
  accounts : List (Nat × Account)
  pending_txs : List PendingTx
  deployed_contracts : List (Nat × List Nat)
  funded_eoa : List Nat
deriving DecidableEq

/-- Embedding of `super().__setitem__(address, account)`: record an expected account,
shadowing any previous entry for the same address. -/
def set_account (accounts : List (Nat × Account)) (a : Nat) (acct : Account) :
    List (Nat × Account) :=
  (a, acct) :: accounts

/-- The empty allocation a test starts from. -/
def init_alloc : AllocState := ⟨[], [], [], []⟩

/-- Embedding of `Alloc.__setitem__` from `pre_alloc.py` (lines 232-240): always raises
`ValueError`; the state is returned unchanged alongside the error. -/
def alloc_setitem (st : AllocState) (address : Nat) (account : Account) :
    AllocState × Except String Unit :=
  (st, .error "Tests are not allowed to set pre-alloc items in execute mode")

/-- Teardown refund decision for one funded EOA, from the cleanup phase of the
`pre` fixture in `pre_alloc.py` (lines 766-792): with
`tx_cost = 21000 * max_fee_per_gas`, the refund is skipped when
`remaining_balance < tx_cost`, otherwise a refund of
`remaining_balance - tx_cost` is queued. -/
def refund_decision (remaining_balance max_fee_per_gas : Nat) : Option Nat :=
  let refund_gas_limit := 21000
  let tx_cost := refund_gas_limit * max_fee_per_gas
  if remaining_balance < tx_cost then none
  else some (remaining_balance - tx_cost)

/-- The whole teardown loop over the funded EOAs: for each EOA its live balance
is queried (`balances` is the RPC observation) and the refund decision applied;
the result lists the `(eoa, refund_value)` pairs actually sent. -/
def teardown_refunds (balances : Nat → Nat) (max_fee_per_gas : Nat)
    (eoas : List Nat) : List (Nat × Nat) :=
  eoas.filterMap fun e =>
    (refund_decision (balances e) max_fee_per_gas).map fun v => (e, v)

/-- Embedding of `worker_key_funding_amount` from `sender.py` (lines 104-204).  `worker_count
≤ 1` returns no amount (single-worker mode); a cached shared record is reused;
otherwise the amount is `available_amount // worker_count - funding_tx_cost`
with `available_amount` the configured sweep amount if given, else the seed
key's live balance, and the computation raises when the amount is `≤ 0`. -/
def worker_key_funding_amount (worker_count : Nat) (cached_amount : Option Int)
    (seed_account_sweep_amount : Option Nat) (seed_key_balance : Nat)
    (sender_fund_refund_gas_limit sender_funding_transactions_gas_price : Nat) :
    Except String (Option Int) :=
  if worker_count ≤ 1 then .ok none
  else
    match cached_amount with
    | some a => .ok (some a)
    | none =>
      let available_amount :=
        seed_account_sweep_amount.getD seed_key_balance
      let seed_sender_balance_per_worker := available_amount / worker_count
      let funding_tx_cost :=
        sender_fund_refund_gas_limit * sender_funding_transactions_gas_price
      let amount : Int :=
        (seed_sender_balance_per_worker : Int) - (funding_tx_cost : Int)
      if amount ≤ 0 then
        .error "seed amount too low to distribute to the workers"
      else .ok (some amount)

/-- Modelled from the spec: building and signing the funding transaction with
the seed key as sender consumes the key's current nonce and leaves the
in-memory nonce incremented (`Transaction`/`EOA` of
`execution_testing.test_types` are not in the provided sources; the spec says
the coordinator must "persist the incremented nonce back to the shared
record").  One lock-serialized critical section of `session_worker_key`
(`sender.py` lines 262-290): read the shared nonce record if it exists, else
use the nonce queried from the chain at session start; build the funding
transaction at that nonce; write the incremented nonce back. -/
def seed_nonce_critical_section (chain_nonce : Nat) (record : Option Nat) :
    Nat × Option Nat :=
  match record with
  | some n => (n, some (n + 1))
  | none => (chain_nonce, some (chain_nonce + 1))

/-- Modelled from the spec: `Transaction.set_gas_price` of
`execution_testing.test_types` (not in the provided sources) "fixes each
transaction's fee fields" to the session-wide prices passed to
`minimum_balance_for_pending_transactions`. -/
def set_gas_price (tx : PendingTx)
    (gas_price max_fee_per_gas max_priority_fee_per_gas max_fee_per_blob_gas : Nat) :
    PendingTx :=
  { tx with
    gas_price := some gas_price
    max_fee_per_gas := some max_fee_per_gas
    max_priority_fee_per_gas := some max_priority_fee_per_gas
    max_fee_per_blob_gas := some max_fee_per_blob_gas }

/-- Embedding of `tx.to in sender_balances` followed by `sender_balances[tx.to]` from
`minimum_balance_for_pending_transactions`: the observed balance of the
transaction's recipient, `none` when the recipient is missing from the map
(or the transaction has no recipient). -/
def recipient_observed_balance (sender_balances : List (Nat × Nat))
    (tx : PendingTx) : Option Nat :=
  tx.toAddr.bind fun a => List.lookup a sender_balances

/-- Modelled from the spec: `Transaction.signer_minimum_balance(fork=...)` of
`execution_testing.test_types` (not in the provided sources) is "each sender's
minimum required balance (fee cost + value) fork-specific"; the fork-specific
fee cost enters as an arbitrary function `fee_cost`. -/
def signer_minimum_balance (fee_cost : PendingTx → Nat) (tx : PendingTx) : Nat :=
  fee_cost tx + tx.value.getD 0

/-- One iteration of the deferred-value resolution in
`minimum_balance_for_pending_transactions` (`pre_alloc.py` lines 646-656): a
concrete value is kept; a deferred value is replaced by the recipient's
observed balance, and the `assert tx.to in sender_balances` raises when the
recipient has no observed balance. -/
def resolve_value (sender_balances : List (Nat × Nat)) (tx : PendingTx) :
    Except String PendingTx :=
  match tx.value with
  | some _ => .ok tx
  | none =>
    match recipient_observed_balance sender_balances tx with
    | some b => .ok { tx with value := some b }
    | none => .error "Sender balance must be set before sending"

/-- The loop of `minimum_balance_for_pending_transactions` over the pending
transactions: resolve each deferred value, fix the fee fields, and accumulate
`signer_minimum_balance` and `gas_limit`; the updated transaction list is
returned (the Python loop mutates the stored transactions in place). -/
def min_balance_loop (fee_cost : PendingTx → Nat)
    (sender_balances : List (Nat × Nat))
    (gas_price max_fee_per_gas max_priority_fee_per_gas max_fee_per_blob_gas : Nat) :
    List PendingTx → Except String ((Nat × Nat) × List PendingTx)
  | [] => .ok ((0, 0), [])
  | tx :: rest =>
    match resolve_value sender_balances tx with
    | .error e => .error e
    | .ok tx0 =>
      let tx1 := set_gas_price tx0 gas_price max_fee_per_gas
        max_priority_fee_per_gas max_fee_per_blob_gas
      match min_balance_loop fee_cost sender_balances gas_price max_fee_per_gas
          max_priority_fee_per_gas max_fee_per_blob_gas rest with
      | .error e => .error e
      | .ok ((mb, gc), rest1) =>
        .ok ((mb + signer_minimum_balance fee_cost tx1, gc + tx1.gas_limit),
          tx1 :: rest1)

/-- Embedding of `minimum_balance_for_pending_transactions` from `pre_alloc.py` (lines
631-665): returns `(minimum_balance + gas_consumption * gas_price,
gas_consumption)` together with the updated pending-transaction list. -/
def minimum_balance_for_pending_transactions (fee_cost : PendingTx → Nat)
    (sender_balances : List (Nat × Nat))
    (gas_price max_fee_per_gas max_priority_fee_per_gas max_fee_per_blob_gas : Nat)
    (txs : List PendingTx) : Except String ((Nat × Nat) × List PendingTx) :=
  match min_balance_loop fee_cost sender_balances gas_price max_fee_per_gas
      max_priority_fee_per_gas max_fee_per_blob_gas txs with
  | .error e => .error e
  | .ok ((minimum_balance, gas_consumption), txs1) =>
    .ok ((minimum_balance + gas_consumption * gas_price, gas_consumption), txs1)

/-- Relation between a queued transaction and its state after
`minimum_balance_for_pending_transactions` succeeded: the value is concrete (a
deferred value replaced by the recipient's observed balance), the gas limit is
untouched, and the fee fields are fixed. -/
def resolved_fee_fixed (sender_balances : List (Nat × Nat))
    (gas_price max_fee_per_gas max_priority_fee_per_gas max_fee_per_blob_gas : Nat)
    (tx tx1 : PendingTx) : Prop :=
  tx1.value = (match tx.value with
    | some v => some v
    | none => recipient_observed_balance sender_balances tx) ∧
  tx1.value ≠ none ∧
  tx1.gas_limit = tx.gas_limit ∧
  tx1.gas_price = some gas_price ∧
  tx1.max_fee_per_gas = some max_fee_per_gas ∧
  tx1.max_priority_fee_per_gas = some max_priority_fee_per_gas ∧
  tx1.max_fee_per_blob_gas = some max_fee_per_blob_gas

/-- Collaborators of `deploy_contract` that are repository code outside the
provided sources, entering as an abstract environment: the fork's
memory-expansion and calldata gas calculators (`execution_testing.forks`), the
`Initcode` constructor (`execution_testing.tools`; `mk_initcode` maps the
storage slots of the SSTORE initcode preamble and the deploy code to the
initcode bytes), and the deterministic created-contract address derived from
the sender (`execution_testing.test_types.Transaction.created_contract`). -/
structure DeployEnv where
  mem_expansion_gas : Nat → Nat
  calldata_gas : List Nat → Nat
  mk_initcode : List (Nat × Nat) → List Nat → List Nat
  created_contract : Nat

/-- The external RPC collaborator interface consumed by the stub path of
`deploy_contract` (`get_code`, `get_balance`, `get_transaction_count`). -/
structure RpcEnv where
  get_code : Nat → List Nat
  get_balance : Nat → Nat
  get_transaction_count : Nat → Nat

/-- The errors `deploy_contract` can raise (`ValueError` for stub resolution,
`AssertionError` for the size and nonce checks). -/
inductive DeployError where
  | stub_not_found
  | stub_empty
  | code_too_large
  | initcode_too_large
  | nonce_too_low
deriving DecidableEq

/-- The deployment gas limit computed by `deploy_contract` (`pre_alloc.py`
lines 310-359): base `21000 + 32000`, `+ 22600` per pre-set storage slot (term
added only when at least one slot is given), `+ 200` per code byte, plus the
fork's memory-expansion cost of the initcode length, plus the fork's calldata
cost of the initcode, all doubled and capped at `30_000_000`. -/
def deploy_gas_limit_calc (env : DeployEnv) (storage : List (Nat × Nat))
    (code : List Nat) : Nat :=
  let g := 21000 + 32000
  let g := if storage.length > 0 then g + storage.length * 22600 else g
  let g := g + code.length * 200
  let initcode := env.mk_initcode storage code
  let g := g + env.mem_expansion_gas initcode.length
  let g := g + env.calldata_gas initcode
  min (g * 2) 30000000

/-- Embedding of `Alloc.deploy_contract` from `pre_alloc.py` (lines 258-405), legacy
(non-EOF) code path.  The stub path resolves a pre-existing address through
the stub registry and reads balance/nonce/code from the chain; the fresh path
checks the code size, builds the initcode, checks the initcode size, queues
the deployment transaction, records the deployed contract, checks
`nonce >= 1` (an assert that fires only after the transaction was queued) and
records the expected account.  Size errors are raised before anything is
queued, so those error cases return the state unchanged. -/
def deploy_contract (env : DeployEnv) (rpc : RpcEnv)
    (address_stubs : List (Nat × Nat)) (st : AllocState)
    (code : List Nat) (storage : List (Nat × Nat)) (balance nonce : Nat)
    (stub : Option Nat) : AllocState × Except DeployError Nat :=
  match stub with
  | some s =>
    match List.lookup s address_stubs with
    | none => (st, .error .stub_not_found)
    | some contract_address =>
      let stub_code := rpc.get_code contract_address
      if stub_code = [] then (st, .error .stub_empty)
      else
        let bal := rpc.get_balance contract_address
        let cnt := rpc.get_transaction_count contract_address
        ({ st with accounts :=
            set_account st.accounts contract_address ⟨cnt, bal, stub_code, []⟩ },
          .ok contract_address)
  | none =>
    if code.length > MAX_BYTECODE_SIZE then (st, .error .code_too_large)
    else
      let initcode := env.mk_initcode storage code
      if initcode.length > MAX_INITCODE_SIZE then (st, .error .initcode_too_large)
      else
        let deploy_tx : PendingTx :=
          ⟨none, some balance, deploy_gas_limit_calc env storage code,
            none, none, none, none⟩
        let st1 : AllocState :=
          { st with
            pending_txs := st.pending_txs ++ [deploy_tx]
            deployed_contracts :=
              st.deployed_contracts ++ [(env.created_contract, code)] }
        if nonce < 1 then (st1, .error .nonce_too_low)
        else
          let acct : Account := ⟨nonce, balance, code, storage⟩
          ({ st1 with accounts :=
              set_account st1.accounts env.created_contract acct },
            .ok env.created_contract)

/-- A concrete deployment environment for witnesses: zero gas calculators, the
initcode is the deploy code itself, the derived contract address is 42. -/
def env0 : DeployEnv := ⟨fun _ => 0, fun _ => 0, fun _ code => code, 42⟩

/-- A concrete RPC observation for counterexamples: every address has code
`[1]`, balance 7, and a transaction count of 0 (as a pre-Spurious-Dragon
mainnet contract reports). -/
def rpc_nonce0 : RpcEnv := ⟨fun _ => [1], fun _ => 7, fun _ => 0⟩

/-- A concrete RPC observation for witnesses: every address has code `[1]`,
balance 7, and a transaction count of 3. -/
def rpc_nonce3 : RpcEnv := ⟨fun _ => [1], fun _ => 7, fun _ => 3⟩

end ExecuteOrchestration

namespace ExecuteOrchestration

/-- C1: the claim states the refund is skipped iff
`remaining_balance - 21000 * max_fee_per_gas ≤ 0`, in particular skipped at
remainder exactly 0.  The code skips only on a strictly smaller balance: at
`remaining_balance = 21_000_000`, `max_fee_per_gas = 1_000` the remainder is 0
and the code still sends a (zero-value) refund, so the claimed equivalence is
false at this input. -/
theorem C1_counterexample :
    ¬ (refund_decision 21000000 1000 = none ↔
        ((21000000 : Int) - 21000 * 1000 ≤ 0)) := by
  decide

/-- C1 (amended): the refund is skipped iff
`remaining_balance < 21000 * max_fee_per_gas` (strictly); otherwise, including
the remainder-0 case, a refund with value exactly
`remaining_balance - 21000 * max_fee_per_gas` is sent, and the teardown loop
sends exactly those refunds for the funded EOAs. -/
theorem C1_refund_skip_strict (b f : Nat) :
    (refund_decision b f = none ↔ b < 21000 * f) ∧
    (∀ v, refund_decision b f = some v → v = b - 21000 * f) ∧
    (∀ balances : Nat → Nat, ∀ e : Nat,
      teardown_refunds balances f [e] =
        if balances e < 21000 * f then [] else [(e, balances e - 21000 * f)]) := by
  refine ⟨?_, ?_, ?_⟩
  · simp only [refund_decision]
    split <;> simp_all
  · intro v hv
    simp only [refund_decision] at hv
    split at hv <;> simp_all
  · intro balances e
    by_cases hb : balances e < 21000 * f
    · simp [teardown_refunds, refund_decision, hb]
    · simp [teardown_refunds, refund_decision, hb]

/-- Witness for C1 (amended) at `b = 21000000`, `f = 1000`: the refund value of
the zero-remainder refund is exactly the remainder. -/
theorem C1_refund_skip_strict_witness :
    (0 : Nat) = 21000000 - 21000 * 1000 :=
  (C1_refund_skip_strict 21000000 1000).2.1 0 (by decide)

/-- C2: in multi-worker mode with no cached record, the funding amount is
`floor(available_amount / worker_count) - gas_limit * gas_price` with
`available_amount` the configured sweep amount if given, else the seed key's
live balance; the computation raises iff that value is `≤ 0`, and otherwise
returns exactly that value. -/
theorem C2_worker_funding (wc : Nat) (sweep : Option Nat) (bal gl gp : Nat)
    (h : 2 ≤ wc) :
    ((∃ e, worker_key_funding_amount wc none sweep bal gl gp = .error e) ↔
      ((sweep.getD bal / wc : Nat) : Int) - ((gl * gp : Nat) : Int) ≤ 0) ∧
    (0 < ((sweep.getD bal / wc : Nat) : Int) - ((gl * gp : Nat) : Int) →
      worker_key_funding_amount wc none sweep bal gl gp =
        .ok (some (((sweep.getD bal / wc : Nat) : Int) - ((gl * gp : Nat) : Int)))) := by
  have hwc : ¬ wc ≤ 1 := by omega
  simp only [worker_key_funding_amount, if_neg hwc]
  constructor
  · split
    · rename_i hle
      exact iff_of_true ⟨_, rfl⟩ hle
    · rename_i hgt
      exact iff_of_false (fun ⟨e, he⟩ => Except.noConfusion he) hgt
  · intro hpos
    rw [if_neg (not_le.mpr hpos)]

/-- Witness for C2 at `worker_count = 2`, balance `2_000_000`, gas limit
`21000`, gas price `1`: the computed amount is `979_000`. -/
theorem C2_worker_funding_witness :
    worker_key_funding_amount 2 none none 2000000 21000 1 =
      .ok (some ((((none : Option Nat).getD 2000000 / 2 : Nat) : Int) - (((21000 * 1 : Nat)) : Int))) :=
  (C2_worker_funding 2 none 2000000 21000 1 (by decide)).2 (by decide)

/-- C8: the claim states that `worker_count` funding amounts plus one refund
cost per worker at gas limit `sender_fund_refund_gas_limit` and **double** the
funding gas price never exceed the starting balance.  At `worker_count = 2`,
balance `2_000_000`, gas limit `21000`, gas price `1`, each worker gets
`979_000` and each refund costs `21000 * 2`, giving a total of `2_042_000 >
2_000_000`, so the claim is false at this input. -/
theorem C8_counterexample :
    worker_key_funding_amount 2 none none 2000000 21000 1 = .ok (some 979000) ∧
    ¬ (2 * 979000 + 2 * (21000 * (2 * 1)) ≤ 2000000) := by
  exact ⟨rfl, by decide⟩

/-- C8 (amended): for `worker_count ≥ 2`, the sum of all computed worker
funding amounts plus one **funding**-transaction cost per worker (gas limit
`sender_fund_refund_gas_limit` at the funding gas price, the cost the seed key
actually pays per worker) never exceeds the seed key's starting balance. -/
theorem C8_funding_total_bound (wc a gl gp : Nat) (f : Int)
    (h : worker_key_funding_amount wc none none a gl gp = .ok (some f)) :
    wc * (f.toNat + gl * gp) ≤ a := by
  simp only [worker_key_funding_amount, Option.getD] at h
  split at h
  · simp at h
  · split at h
    · simp at h
    · rename_i hpos
      simp only [Except.ok.injEq, Option.some.injEq] at h
      rw [not_le] at hpos
      have hdiv : a / wc * wc ≤ a := Nat.div_mul_le_self a wc
      rw [Nat.mul_comm wc (f.toNat + gl * gp)]
      generalize hq : a / wc = q at h hpos hdiv
      generalize hc : gl * gp = c at h hpos ⊢
      have hqc : f.toNat + c = q := by omega
      rw [hqc]
      exact hdiv

/-- Witness for C8 (amended) at `worker_count = 2`, balance `2_000_000`, gas
limit `21000`, gas price `1`. -/
theorem C8_funding_total_bound_witness :
    2 * ((979000 : Int).toNat + 21000 * 1) ≤ 2000000 :=
  C8_funding_total_bound 2 2000000 21000 1 979000 rfl

/-- C9: two lock-serialized critical sections over one shared seed-key nonce
record never use the same nonce, whatever chain nonces each invocation saw at
its own session start and whatever the initial record state: the first
invocation persists the incremented nonce, so the second reads a strictly
larger value. -/
theorem C9_nonce_serialization (c1 c2 : Nat) (r0 : Option Nat) :
    (seed_nonce_critical_section c1 r0).1 ≠
      (seed_nonce_critical_section c2 (seed_nonce_critical_section c1 r0).2).1 := by
  cases r0 <;> simp [seed_nonce_critical_section]

/-- Helper: `resolve_value` fails exactly on a deferred value whose recipient
has no observed balance. -/
theorem resolve_value_error_iff (s : List (Nat × Nat)) (tx : PendingTx) :
    (∃ e, resolve_value s tx = .error e) ↔
      tx.value = none ∧ recipient_observed_balance s tx = none := by
  rcases hv : tx.value with _ | v
  · rcases hb : recipient_observed_balance s tx with _ | b <;>
      simp [resolve_value, hv, hb]
  · simp [resolve_value, hv]

/-- Helper: a successful `resolve_value` keeps everything but the value, which
becomes the concrete resolution of the transaction's value. -/
theorem resolve_value_ok (s : List (Nat × Nat)) (tx tx0 : PendingTx)
    (h : resolve_value s tx = .ok tx0) :
    tx0.value = (match tx.value with
      | some v => some v
      | none => recipient_observed_balance s tx) ∧
    tx0.value ≠ none ∧ tx0.gas_limit = tx.gas_limit ∧ tx0.toAddr = tx.toAddr := by
  rcases hv : tx.value with _ | v
  · rcases hb : recipient_observed_balance s tx with _ | b <;>
      simp [resolve_value, hv, hb] at h
    subst h
    simp [hv, hb]
  · simp [resolve_value, hv] at h
    subst h
    simp [hv]

/-- Helper: the loop fails exactly when some queued transaction has a deferred
value whose recipient has no observed balance. -/
theorem min_balance_loop_error_iff (fee_cost : PendingTx → Nat)
    (s : List (Nat × Nat)) (gp mfg mpfg mfbg : Nat) (txs : List PendingTx) :
    (∃ e, min_balance_loop fee_cost s gp mfg mpfg mfbg txs = .error e) ↔
      ∃ tx ∈ txs, tx.value = none ∧ recipient_observed_balance s tx = none := by
  induction txs with
  | nil => simp [min_balance_loop]
  | cons tx rest ih =>
    simp only [min_balance_loop]
    cases hr : resolve_value s tx with
    | error e =>
      simp only []
      constructor
      · intro _
        exact ⟨tx, List.mem_cons_self tx rest,
          (resolve_value_error_iff s tx).mp ⟨e, hr⟩⟩
      · intro _
        exact ⟨e, rfl⟩
    | ok tx0 =>
      have hres : ¬ (tx.value = none ∧ recipient_observed_balance s tx = none) := by
        intro hc
        obtain ⟨e, he⟩ := (resolve_value_error_iff s tx).mpr hc
        rw [hr] at he
        exact Except.noConfusion he
      cases hl : min_balance_loop fee_cost s gp mfg mpfg mfbg rest with
      | error e =>
        simp only []
        constructor
        · intro _
          obtain ⟨tx', htx', hp⟩ := ih.mp ⟨e, hl⟩
          exact ⟨tx', List.mem_cons_of_mem tx htx', hp⟩
        · intro _
          exact ⟨e, rfl⟩
      | ok p =>
        obtain ⟨⟨mb, gc⟩, rest1⟩ := p
        simp only []
        constructor
        · rintro ⟨e, he⟩
          exact absurd he (by simp)
        · rintro ⟨tx', htx', hp⟩
          rcases List.mem_cons.mp htx' with heq | hmem
          · subst heq
            exact absurd hp hres
          · obtain ⟨e, he⟩ := ih.mpr ⟨tx', hmem, hp⟩
            rw [he] at hl
            exact Except.noConfusion hl

/-- Helper: a successful loop run relates the input and output lists
elementwise, returns the summed gas limits, and the accumulated
`signer_minimum_balance` total dominates the summed concrete values. -/
theorem min_balance_loop_ok (fee_cost : PendingTx → Nat)
    (s : List (Nat × Nat)) (gp mfg mpfg mfbg : Nat) (txs : List PendingTx)
    (mb gc : Nat) (txs1 : List PendingTx)
    (h : min_balance_loop fee_cost s gp mfg mpfg mfbg txs = .ok ((mb, gc), txs1)) :
    List.Forall₂ (resolved_fee_fixed s gp mfg mpfg mfbg) txs txs1 ∧
    gc = (txs1.map fun tx => tx.gas_limit).sum ∧
    (txs1.map fun tx => tx.value.getD 0).sum ≤ mb := by
  induction txs generalizing mb gc txs1 with
  | nil =>
    simp only [min_balance_loop, Except.ok.injEq, Prod.mk.injEq] at h
    obtain ⟨⟨h1, h2⟩, h3⟩ := h
    subst h1; subst h2; subst h3
    simp
  | cons tx rest ih =>
    simp only [min_balance_loop] at h
    cases hr : resolve_value s tx with
    | error e =>
      rw [hr] at h
      exact absurd h (by simp)
    | ok tx0 =>
      rw [hr] at h
      cases hl : min_balance_loop fee_cost s gp mfg mpfg mfbg rest with
      | error e =>
        rw [hl] at h
        exact absurd h (by simp)
      | ok p =>
        obtain ⟨⟨mbr, gcr⟩, rest1⟩ := p
        rw [hl] at h
        simp only [Except.ok.injEq, Prod.mk.injEq] at h
        obtain ⟨⟨hmb, hgc⟩, hlist⟩ := h
        obtain ⟨hforall, hgas, hval⟩ := ih mbr gcr rest1 hl
        obtain ⟨hv0, hne0, hgl0, _⟩ := resolve_value_ok s tx tx0 hr
        subst hlist
        refine ⟨?_, ?_, ?_⟩
        · refine List.Forall₂.cons ?_ hforall
          refine ⟨?_, ?_, ?_, rfl, rfl, rfl, rfl⟩
          · simpa [set_gas_price] using hv0
          · simpa [set_gas_price] using hne0
          · simpa [set_gas_price] using hgl0
        · simp only [List.map_cons, List.sum_cons]
          rw [← hgc]
          omega
        · simp only [List.map_cons, List.sum_cons]
          rw [← hmb]
          have : (set_gas_price tx0 gp mfg mpfg mfbg).value.getD 0 ≤
              signer_minimum_balance fee_cost (set_gas_price tx0 gp mfg mpfg mfbg) := by
            simp [signer_minimum_balance]
          omega

/-- C5: `minimum_balance_for_pending_transactions` fails iff some pending
transaction has a deferred value whose recipient has no observed balance; on
success every returned pending transaction has a concrete value (a deferred
value having been set to its recipient's observed balance), its original gas
limit, and all four fee fields fixed. -/
theorem C5_min_balance_resolution (fee_cost : PendingTx → Nat)
    (sender_balances : List (Nat × Nat)) (gas_price mfg mpfg mfbg : Nat)
    (txs : List PendingTx) :
    ((∃ e, minimum_balance_for_pending_transactions fee_cost sender_balances
        gas_price mfg mpfg mfbg txs = .error e) ↔
      ∃ tx ∈ txs, tx.value = none ∧
        recipient_observed_balance sender_balances tx = none) ∧
    (∀ mb gc txs1,
      minimum_balance_for_pending_transactions fee_cost sender_balances
        gas_price mfg mpfg mfbg txs = .ok ((mb, gc), txs1) →
      List.Forall₂ (resolved_fee_fixed sender_balances gas_price mfg mpfg mfbg)
        txs txs1) := by
  constructor
  · rw [← min_balance_loop_error_iff fee_cost sender_balances gas_price mfg mpfg mfbg txs]
    unfold minimum_balance_for_pending_transactions
    cases hl : min_balance_loop fee_cost sender_balances gas_price mfg mpfg mfbg txs with
    | error e =>
      exact iff_of_true ⟨e, rfl⟩ ⟨e, rfl⟩
    | ok p =>
      obtain ⟨⟨mb, gc⟩, txs1⟩ := p
      exact iff_of_false (fun ⟨e, he⟩ => Except.noConfusion he)
        (fun ⟨e, he⟩ => Except.noConfusion he)
  · intro mb gc txs1 h
    unfold minimum_balance_for_pending_transactions at h
    cases hl : min_balance_loop fee_cost sender_balances gas_price mfg mpfg mfbg txs with
    | error e =>
      rw [hl] at h
      exact absurd h (by simp)
    | ok p =>
      obtain ⟨⟨mb0, gc0⟩, txs0⟩ := p
      rw [hl] at h
      simp only [Except.ok.injEq, Prod.mk.injEq] at h
      obtain ⟨-, hlist⟩ := h
      subst hlist
      exact (min_balance_loop_ok fee_cost sender_balances gas_price mfg mpfg mfbg
        txs mb0 gc0 txs0 hl).1

/-- Witness for C5: a single deferred transaction whose recipient is missing
from the observed balances makes the computation fail. -/
theorem C5_min_balance_resolution_witness :
    ∃ e, minimum_balance_for_pending_transactions (fun _ => 0) [] 1 1 1 1
      [⟨some 7, none, 21000, none, none, none, none⟩] = .error e :=
  (C5_min_balance_resolution (fun _ => 0) [] 1 1 1 1
    [⟨some 7, none, 21000, none, none, none, none⟩]).1.mpr
    ⟨⟨some 7, none, 21000, none, none, none, none⟩, by simp, rfl, rfl⟩

/-- Helper: distributing the gas price over a summed gas-limit list. -/
theorem sum_map_gas_mul (l : List PendingTx) (gp : Nat) :
    (l.map fun tx => tx.gas_limit * gp).sum =
      (l.map fun tx => tx.gas_limit).sum * gp := by
  induction l with
  | nil => simp
  | cons a t ih => simp [ih, Nat.add_mul]

/-- C6: on success, the first component returned by
`minimum_balance_for_pending_transactions` is at least the sum of
`gas_limit * gas_price` over all queued pending transactions plus the sum of
all queued (resolved) transaction values. -/
theorem C6_min_balance_lower_bound (fee_cost : PendingTx → Nat)
    (sender_balances : List (Nat × Nat)) (gas_price mfg mpfg mfbg : Nat)
    (txs : List PendingTx) (mb gc : Nat) (txs1 : List PendingTx)
    (h : minimum_balance_for_pending_transactions fee_cost sender_balances
      gas_price mfg mpfg mfbg txs = .ok ((mb, gc), txs1)) :
    (txs1.map fun tx => tx.gas_limit * gas_price).sum +
      (txs1.map fun tx => tx.value.getD 0).sum ≤ mb := by
  unfold minimum_balance_for_pending_transactions at h
  cases hl : min_balance_loop fee_cost sender_balances gas_price mfg mpfg mfbg txs with
  | error e =>
    rw [hl] at h
    exact absurd h (by simp)
  | ok p =>
    obtain ⟨⟨mb0, gc0⟩, txs0⟩ := p
    rw [hl] at h
    simp only [Except.ok.injEq, Prod.mk.injEq] at h
    obtain ⟨⟨hmb, hgc⟩, hlist⟩ := h
    obtain ⟨-, hgas, hval⟩ := min_balance_loop_ok fee_cost sender_balances
      gas_price mfg mpfg mfbg txs mb0 gc0 txs0 hl
    subst hlist
    rw [sum_map_gas_mul]
    rw [← hmb, ← hgas]
    omega

/-- Witness for C6: one concrete transaction with value 5 and gas limit 21000
at gas price 2. -/
theorem C6_min_balance_lower_bound_witness :
    ([⟨some 7, some 5, 21000, some 2, some 2, some 2, some 2⟩].map
        (fun tx : PendingTx => tx.gas_limit * 2)).sum +
      ([⟨some 7, some 5, 21000, some 2, some 2, some 2, some 2⟩].map
        (fun tx : PendingTx => tx.value.getD 0)).sum ≤ 42005 :=
  C6_min_balance_lower_bound (fun _ => 0) [] 2 2 2 2
    [⟨some 7, some 5, 21000, none, none, none, none⟩] 42005 21000
    [⟨some 7, some 5, 21000, some 2, some 2, some 2, some 2⟩] rfl

/-- C10: directly assigning an account on the execute-mode `Alloc` always
raises `ValueError` and leaves the state (accounts, pending transactions,
deployed contracts, funded EOAs) unchanged. -/
theorem C10_setitem_always_raises (st : AllocState) (a : Nat) (acct : Account) :
    (alloc_setitem st a acct).2 =
      .error "Tests are not allowed to set pre-alloc items in execute mode" ∧
    (alloc_setitem st a acct).1 = st :=
  ⟨rfl, rfl⟩

/-- C3: on the non-stub legacy path, the queued deployment transaction's gas
limit is `deploy_gas_limit_calc`, which equals
`min(2 * (21000 + 32000 + 22600 * slots + 200 * len(code) + mem_expansion +
calldata), 30_000_000)`; it never exceeds `30_000_000`, and with 3 storage
slots it is at least `(21000 + 32000 + 3 * 22600) * 2`. -/
theorem C3_deploy_gas_limit (env : DeployEnv) (rpc : RpcEnv)
    (address_stubs : List (Nat × Nat)) (st : AllocState)
    (code : List Nat) (storage : List (Nat × Nat)) (balance nonce : Nat)
    (hc : code.length ≤ MAX_BYTECODE_SIZE)
    (hi : (env.mk_initcode storage code).length ≤ MAX_INITCODE_SIZE) :
    (deploy_contract env rpc address_stubs st code storage balance nonce
        none).1.pending_txs =
      st.pending_txs ++
        [⟨none, some balance, deploy_gas_limit_calc env storage code,
          none, none, none, none⟩] ∧
    deploy_gas_limit_calc env storage code =
      min ((21000 + 32000 + storage.length * 22600 + code.length * 200 +
        env.mem_expansion_gas (env.mk_initcode storage code).length +
        env.calldata_gas (env.mk_initcode storage code)) * 2) 30000000 ∧
    deploy_gas_limit_calc env storage code ≤ 30000000 ∧
    (storage.length = 3 →
      (21000 + 32000 + 3 * 22600) * 2 ≤ deploy_gas_limit_calc env storage code) := by
  refine ⟨?_, ?_, ?_, ?_⟩
  · simp only [deploy_contract, gt_iff_lt]
    rw [if_neg (not_lt.mpr hc), if_neg (not_lt.mpr hi)]
    by_cases hn : nonce < 1
    · rw [if_pos hn]
    · rw [if_neg hn]
  · simp only [deploy_gas_limit_calc]
    by_cases hs : storage.length > 0
    · rw [if_pos hs]
    · rw [if_neg hs]
      have h0 : storage.length = 0 := by omega
      rw [h0]
  · exact Nat.min_le_right _ _
  · intro hs3
    have h3 : storage.length > 0 := by omega
    simp only [deploy_gas_limit_calc]
    rw [if_pos h3, hs3, le_min_iff]
    constructor
    · generalize env.mem_expansion_gas (env.mk_initcode storage code).length = m
      generalize env.calldata_gas (env.mk_initcode storage code) = cd
      omega
    · norm_num

/-- Witness for C3: with 3 pre-set storage slots and a 1-byte code the gas
limit is at least `(21000 + 32000 + 3 * 22600) * 2`. -/
theorem C3_deploy_gas_limit_witness :
    (21000 + 32000 + 3 * 22600) * 2 ≤
      deploy_gas_limit_calc env0 [(1, 2), (3, 4), (5, 6)] [0] :=
  (C3_deploy_gas_limit env0 rpc_nonce3 [] init_alloc [0] [(1, 2), (3, 4), (5, 6)]
    0 1 (by decide) (by decide)).2.2.2 rfl

/-- C4: legacy code one byte over `MAX_BYTECODE_SIZE` fails with a code-size
error and an initcode over `MAX_INITCODE_SIZE` fails with an initcode-size
error, in both cases returning the state unchanged (nothing queued, no account
recorded); code of exactly `MAX_BYTECODE_SIZE` bytes (with in-bounds initcode
and valid nonce) succeeds; and the whole non-stub path is independent of the
RPC client, so size errors are raised before any network call. -/
theorem C4_deploy_size_limits (env : DeployEnv) (rpc rpc2 : RpcEnv)
    (address_stubs : List (Nat × Nat)) (st : AllocState)
    (code : List Nat) (storage : List (Nat × Nat)) (balance nonce : Nat) :
    (code.length = 24577 →
      deploy_contract env rpc address_stubs st code storage balance nonce none =
        (st, .error .code_too_large)) ∧
    (code.length ≤ MAX_BYTECODE_SIZE →
      MAX_INITCODE_SIZE < (env.mk_initcode storage code).length →
      deploy_contract env rpc address_stubs st code storage balance nonce none =
        (st, .error .initcode_too_large)) ∧
    (code.length = 24576 →
      (env.mk_initcode storage code).length ≤ MAX_INITCODE_SIZE →
      1 ≤ nonce →
      (deploy_contract env rpc address_stubs st code storage balance nonce
        none).2 = .ok env.created_contract) ∧
    (deploy_contract env rpc address_stubs st code storage balance nonce none =
      deploy_contract env rpc2 address_stubs st code storage balance nonce none) := by
  refine ⟨?_, ?_, ?_, rfl⟩
  · intro h24577
    simp only [deploy_contract, gt_iff_lt]
    rw [if_pos (by rw [h24577]; decide)]
  · intro hc hi
    simp only [deploy_contract, gt_iff_lt]
    rw [if_neg (not_lt.mpr hc), if_pos hi]
  · intro hc hi hn
    simp only [deploy_contract, gt_iff_lt]
    rw [if_neg (not_lt.mpr (by rw [hc]; decide)), if_neg (not_lt.mpr hi),
      if_neg (by omega)]

/-- Witness for C4: deploying `24576` zero bytes through the concrete
environment (whose initcode is the code itself) succeeds. -/
theorem C4_deploy_size_limits_witness :
    (deploy_contract env0 rpc_nonce3 [] init_alloc (List.replicate 24576 0) []
      0 1 none).2 = .ok env0.created_contract :=
  (C4_deploy_size_limits env0 rpc_nonce3 rpc_nonce3 [] init_alloc
    (List.replicate 24576 0) [] 0 1).2.2.1 (by rw [List.length_replicate])
    (by simp only [env0]; rw [List.length_replicate]; decide) (by decide)

/-- C7: the claim states every successful `deploy_contract` records an
expected account with nonce ≥ 1, including the stub path.  On the stub path
the recorded nonce is whatever transaction count the chain reports, which the
code does not check: with an RPC reporting a transaction count of 0 for a
stub address with code, the deployment succeeds and records nonce 0. -/
theorem C7_counterexample :
    (deploy_contract env0 rpc_nonce0 [(1, 5)] init_alloc [] [] 0 1
      (some 1)).2 = .ok 5 ∧
    ((deploy_contract env0 rpc_nonce0 [(1, 5)] init_alloc [] [] 0 1
      (some 1)).1.accounts.lookup 5).map Account.nonce = some 0 := by
  exact ⟨rfl, rfl⟩

/-- C7 (amended): on the fresh-deployment path every successful
`deploy_contract` records an expected account whose nonce is ≥ 1 (the nonce
parameter, checked against 1); on the stub path the recorded nonce equals the
transaction count reported by the chain for the stub address, with no ≥ 1
check. -/
theorem C7_deploy_nonce (env : DeployEnv) (rpc : RpcEnv)
    (address_stubs : List (Nat × Nat)) (st : AllocState)
    (code : List Nat) (storage : List (Nat × Nat)) (balance nonce : Nat)
    (a : Nat) :
    ((deploy_contract env rpc address_stubs st code storage balance nonce
        none).2 = .ok a →
      ∃ acct, ((deploy_contract env rpc address_stubs st code storage balance
        nonce none).1.accounts.lookup a) = some acct ∧ 1 ≤ acct.nonce) ∧
    (∀ s ca, List.lookup s address_stubs = some ca →
      (deploy_contract env rpc address_stubs st code storage balance nonce
        (some s)).2 = .ok ca →
      ∃ acct, ((deploy_contract env rpc address_stubs st code storage balance
        nonce (some s)).1.accounts.lookup ca) = some acct ∧
        acct.nonce = rpc.get_transaction_count ca) := by
  constructor
  · intro h
    simp only [deploy_contract, gt_iff_lt] at h ⊢
    split at h
    · exact absurd h (by simp)
    · split at h
      · exact absurd h (by simp)
      · split at h
        · exact absurd h (by simp)
        · rename_i hcode hinit hnonce
          simp only [Except.ok.injEq] at h
          subst h
          rw [if_neg hcode, if_neg hinit, if_neg hnonce]
          exact ⟨⟨nonce, balance, code, storage⟩,
            by simp [set_account, List.lookup], Nat.not_lt.mp hnonce⟩
  · intro s ca hs h
    simp only [deploy_contract, hs] at h ⊢
    split at h
    · exact absurd h (by simp)
    · rename_i hcode
      rw [if_neg hcode]
      exact ⟨⟨rpc.get_transaction_count ca, rpc.get_balance ca,
        rpc.get_code ca, []⟩, by simp [set_account, List.lookup], rfl⟩

/-- Witness for C7 (amended): a fresh deployment records nonce 1; a stub
resolution against an RPC reporting transaction count 3 records nonce 3. -/
theorem C7_deploy_nonce_witness :
    (∃ acct, ((deploy_contract env0 rpc_nonce3 [] init_alloc [0] [] 0 1
      none).1.accounts.lookup 42) = some acct ∧ 1 ≤ acct.nonce) ∧
    (∃ acct, ((deploy_contract env0 rpc_nonce3 [(1, 5)] init_alloc [] [] 0 1
      (some 1)).1.accounts.lookup 5) = some acct ∧
      acct.nonce = rpc_nonce3.get_transaction_count 5) :=
  ⟨(C7_deploy_nonce env0 rpc_nonce3 [] init_alloc [0] [] 0 1 42).1 rfl,
    (C7_deploy_nonce env0 rpc_nonce3 [(1, 5)] init_alloc [] [] 0 1 5).2 1 5
      rfl rfl⟩

end ExecuteOrchestration
